import Mathlib

/-!
Verification development for the dns-tools repository (CloudFlare/Porkbun bulk
DNS orchestration).  The JavaScript/TypeScript source is shallowly embedded:
pure string manipulation is reimplemented over `List Char`, remote API calls
are abstracted into explicit outcome environments, and the in-place mutation
of shared record arrays is made explicit by threading the record list through
each operation.
-/

/-! ## JavaScript string semantics -/

/-- Membership test for a needle at the head of a haystack (character lists). -/
def charsStartWith : List Char → List Char → Bool
  | [], _ => true
  | _ :: _, [] => false
  | a :: as, b :: bs => a == b && charsStartWith as bs

/-- JS `String.prototype.includes`: the needle occurs contiguously somewhere. -/
def charsContain (needle : List Char) : List Char → Bool
  | [] => charsStartWith needle []
  | b :: bs => charsStartWith needle (b :: bs) || charsContain needle bs

/-- JS `haystack.includes(needle)` on strings. -/
def jsIncludes (haystack needle : String) : Bool :=
  charsContain needle.data haystack.data

/-- The whitespace characters recognised by JS `trim` and the regex class. -/
def isJsWs (c : Char) : Bool :=
  c == ' ' || c == '\t' || c == '\r' || c == '\n'

/-- JS `String.prototype.trim` (restricted to the usual ASCII whitespace). -/
def jsTrim (s : String) : String :=
  ⟨((s.data.dropWhile isJsWs).reverse.dropWhile isJsWs).reverse⟩

/-- Core of JS `split` on a one-character-class regex with `+` (runs collapse).
Arguments: the separator class, the remaining input, the current token
(reversed), and whether we are inside a pending separator run. -/
def splitRunsCore (sep : Char → Bool) : List Char → List Char → Bool → List (List Char)
  | [], cur, pending => if pending then [cur.reverse, []] else [cur.reverse]
  | c :: cs, cur, pending =>
    if sep c then splitRunsCore sep cs cur true
    else if pending then cur.reverse :: splitRunsCore sep cs [c] false
    else splitRunsCore sep cs (c :: cur) false

/-- JS `s.split(re)` where `re` matches nonempty runs of a character class. -/
def jsSplitRuns (sep : Char → Bool) (s : String) : List String :=
  (splitRunsCore sep s.data [] false).map (fun l => String.mk l)

/-- JS `line.split(/\t+/)` as used by `createDomainRecordsMapFromTextFile`. -/
def jsSplitTabs (s : String) : List String :=
  jsSplitRuns (fun c => c == '\t') s

/-- JS `line.split(/\s+/)` as used by the porkbun `processDomainFile`. -/
def jsSplitWs (s : String) : List String :=
  jsSplitRuns isJsWs s

/-- Splitting on a literal newline, JS `content.split(str)` semantics. -/
def splitNlAux (cur : List Char) : List Char → List (List Char)
  | [] => [cur.reverse]
  | c :: cs => if c == '\n' then cur.reverse :: splitNlAux [] cs else splitNlAux (c :: cur) cs

/-- JS `content.split('\n')`. -/
def jsSplitNewlines (s : String) : List String :=
  (splitNlAux [] s.data).map (fun l => String.mk l)

/-- Does the (trimmed) line start with the comment marker `#`? -/
def startsWithHash (s : String) : Bool :=
  match s.data with
  | '#' :: _ => true
  | _ => false

/-- JS `String.prototype.toUpperCase` (ASCII letters, as used on record types). -/
def jsToUpperCase (s : String) : String :=
  ⟨s.data.map Char.toUpper⟩

/-! ## Data model -/

/-- A zone or domain snapshot entry: the `{id, name}` shape used in the
`domains/*.txt` JSON snapshots and in zone lookups. -/
structure DomainEntry where
  id : String
  name : String
deriving DecidableEq, Repr

/-- A caller-supplied DNS record, the input shape of the bulk provisioner;
`host` of `""` or `"@"` denotes the zone apex. -/
structure DNSRecord where
  type : String
  host : String
  value : String
  ttl : Option Nat := none
  priority : Option Nat := none
  proxied : Option Bool := none
deriving DecidableEq, Repr

/-- The record shape actually submitted to the provider by `insertDNSRecord`
(`name := record.host`, `content := record.value`, ttl defaulted, etc.). -/
structure FormattedRecord where
  type : String
  name : String
  content : String
  ttl : Nat
  priority : Option Nat
  proxied : Bool
deriving DecidableEq, Repr

/-- JS `x || d` for numeric option fields (`record.ttl || 3600`): both
`undefined` and `0` are falsy. -/
def jsOrNat (x : Option Nat) (d : Nat) : Nat :=
  match x with
  | none => d
  | some n => if n = 0 then d else n

/-- The formatting step of `insertDNSRecord` in `cloudflare.mjs`. -/
def formatRecord (r : DNSRecord) : FormattedRecord :=
  { type := jsToUpperCase r.type
    name := r.host
    content := r.value
    ttl := jsOrNat r.ttl 3600
    priority := r.priority
    proxied := r.proxied.getD false }

/-- One per-item entry of a bulk operation report. -/
structure OperationResult where
  success : Bool
  domain : String
  record : Option (String × String × String) := none
  error : Option String := none
deriving DecidableEq, Repr

/-! ## C9: content filter with the dkim special case (`getFilteredDNSRecords`) -/

/-- A DNS record as returned by the provider listing (`name` is the host). -/
structure RemoteDNSRecord where
  id : String
  name : String
  content : String
deriving DecidableEq, Repr

/-- The filter predicate of `getFilteredDNSRecords` in `cloudflare.mjs`:
for a requested `TXT`/`dkim` filter a record also matches when its name
contains `_domainkey`; otherwise only a content-substring match counts. -/
def dnsFilterPred (content typ : String) (record : RemoteDNSRecord) : Bool :=
  if typ == "TXT" && content == "dkim" then
    jsIncludes record.content content || jsIncludes record.name "_domainkey"
  else
    jsIncludes record.content content

/-- `getFilteredDNSRecords` (the post-fetch filtering step): keep the fetched
records matching the content filter. -/
def getFilteredDNSRecords (records : List RemoteDNSRecord) (content typ : String) :
    List RemoteDNSRecord :=
  records.filter (dnsFilterPred content typ)

/-! ## C10: unguarded zone lookup (`getZoneId`) -/

/-- The two error shapes observable from `getZoneId`: a raw JS `TypeError`
from indexing `undefined`, or the normalized error thrown by
`cloudflareRequest`. -/
inductive CFError
  | typeError (msg : String)
  | normalized (msg : String)
deriving DecidableEq, Repr

/-- The zone lookup boundary: `cloudflareRequest` either throws a normalized
error or yields the `result` list for the `name = domain` query. -/
structure ZoneLookupEnv where
  lookup : String → Except String (List DomainEntry)

/-- `getZoneId` from `cloudflare.mjs`: return `result[0].id` with no check
that the lookup found any zone.  JS indexing out of range yields `undefined`,
and reading `.id` from `undefined` throws a `TypeError`. -/
def getZoneId (env : ZoneLookupEnv) (domain : String) : Except CFError String :=
  match env.lookup domain with
  | .error e => .error (.normalized e)
  | .ok result =>
    match result.get? 0 with
    | none => .error (.typeError "Cannot read properties of undefined (reading id)")
    | some z => .ok z.id

/-! ## Bulk provisioner (`insertDNSRecords`, `createSameDNSRecordsForManyDomains`)

The JS loop `for (let record of records) { if (record.host === '@' ||
record.host === '') record.host = domain; ... }` mutates the caller's record
objects in place.  The embedding threads the record array through every call:
each operation returns, besides its `OperationResult` list, the record array
as it stands after the call, and the trace of `(zoneId, formattedRecord)`
pairs actually submitted to the provider. -/

/-- The remote-call boundary used by the bulk provisioner: the outcome of a
zone-id resolution per domain, and the outcome of one record-create call per
(zone id, formatted record). Outcomes are deterministic functions of their
arguments. -/
structure CFEnv where
  zoneId : String → Except String String
  insertOutcome : String → FormattedRecord → Except String Unit

/-- The result triple of a bulk call: per-item results, the shared record
array after the call (host fields possibly rewritten in place), and the
submissions that reached the provider. -/
abbrev BulkOut :=
  List OperationResult × List DNSRecord × List (String × FormattedRecord)

/-- The normalization-and-insert loop inside `insertDNSRecords`: for each
record, first rewrite an apex host (`""` or `"@"`) to the domain in place,
then submit and push one success/failure `OperationResult`. -/
def insertLoop (env : CFEnv) (domain zid : String) : List DNSRecord → BulkOut
  | [] => ([], [], [])
  | r :: rs =>
    let r1 := if r.host == "@" || r.host == "" then { r with host := domain } else r
    let res : OperationResult :=
      match env.insertOutcome zid (formatRecord r1) with
      | .ok _ =>
        { success := true, domain := domain, record := some (r1.type, r1.host, r1.value) }
      | .error e =>
        { success := false, domain := domain, record := some (r1.type, r1.host, r1.value)
          error := some e }
    let tl := insertLoop env domain zid rs
    (res :: tl.1, r1 :: tl.2.1, (zid, formatRecord r1) :: tl.2.2)

/-- `insertDNSRecords` from `cloudflare.mjs`: resolve the zone id; on failure
return a single failure result and attempt nothing; otherwise run the
normalization-and-insert loop over the (shared, mutated) record array. -/
def insertDNSRecords (env : CFEnv) (domain : String) (records : List DNSRecord) : BulkOut :=
  match env.zoneId domain with
  | .error e => ([{ success := false, domain := domain, error := some e }], records, [])
  | .ok zid => insertLoop env domain zid records

/-- `createSameDNSRecordsForManyDomains` from `cloudflare.mjs`: iterate the
domains, passing the same (mutated) record array to `insertDNSRecords` for
each, concatenating the per-domain results. -/
def createSameDNSRecordsForManyDomains (env : CFEnv) :
    List String → List DNSRecord → BulkOut
  | [], recs => ([], recs, [])
  | d :: ds, recs =>
    let p := insertDNSRecords env d recs
    let q := createSameDNSRecordsForManyDomains env ds p.2.1
    (p.1 ++ q.1, q.2.1, p.2.2 ++ q.2.2)

/-- An environment in which every zone resolves and every insert succeeds. -/
def allOkEnv : CFEnv :=
  ⟨fun d => .ok (String.append "zone-" d), fun _ _ => .ok ()⟩

/-- An environment in which only `bad.com` fails zone resolution. -/
def oneBadEnv : CFEnv :=
  ⟨fun d => if d = "bad.com" then .error "zone not found" else .ok (String.append "z-" d),
   fun _ _ => .ok ()⟩

/-! ## C3: batch result lists (`deleteManyZones`, `pauseManyZones`,
`changeManyDomainRedirects`) -/

/-- The `{success, result}` pair returned by a zone-level mutation request. -/
structure ZoneOpResult where
  success : Bool
  result : String
deriving DecidableEq, Repr

/-- Per-item report of `pauseManyZones`. -/
structure PauseReport where
  domain : String
  success : Bool
  error : Option String := none
deriving DecidableEq, Repr

/-- Outcomes of the zone-level batch operations, per domain: `deleteZone` and
`pauseZone` either throw (zone lookup or request failure) or yield the
provider response. -/
structure ZoneBatchEnv where
  deleteOutcome : String → Except String ZoneOpResult
  pauseOutcome : String → Bool → Except String ZoneOpResult

/-- The `results` array of `deleteManyZones` as it stands when the loop ends:
a successful `deleteZone` pushes the response, a failed one only logs —
failed items are omitted. -/
def deleteManyZonesResults (env : ZoneBatchEnv) : List String → List ZoneOpResult
  | [] => []
  | d :: ds =>
    match env.deleteOutcome d with
    | .ok r => r :: deleteManyZonesResults env ds
    | .error _ => deleteManyZonesResults env ds

/-- `deleteManyZones` from `cloudflare.mjs`: the function builds its `results`
array but its body ends without a `return` statement, so the caller receives
`undefined` (modelled as `none`). -/
def deleteManyZones (env : ZoneBatchEnv) (domains : List String) :
    Option (List ZoneOpResult) :=
  let _ := deleteManyZonesResults env domains
  none

/-- `pauseZone` from `cloudflare.mjs`: request the pause/resume patch, then
check the API success flag and throw when it is false. -/
def pauseZone (env : ZoneBatchEnv) (domain : String) (pause : Bool) :
    Except String ZoneOpResult :=
  match env.pauseOutcome domain pause with
  | .ok r => if r.success then .ok r else .error "Failed to pause zone"
  | .error e => .error e

/-- `pauseManyZones` from `cloudflare.mjs`: one entry is pushed per domain,
success or failure, and the list is returned. -/
def pauseManyZones (env : ZoneBatchEnv) (pause : Bool) : List String → List PauseReport
  | [] => []
  | d :: ds =>
    match pauseZone env d pause with
    | .ok r => { domain := d, success := r.success } :: pauseManyZones env pause ds
    | .error e =>
      { domain := d, success := false, error := some e } :: pauseManyZones env pause ds

/-- `changeManyDomainRedirects` from `cloudflare.mjs`: the loop catches and
logs per-domain failures but collects nothing, and the body has no `return`
statement — the caller receives `undefined` (modelled as `none`). -/
def changeManyDomainRedirects (outcome : String → Except String Unit)
    (domains : List String) : Option (List OperationResult) :=
  let _ := domains.map (fun d => outcome d)
  none

/-- A batch environment in which everything on `a.com` fails and everything
else succeeds. -/
def aFailsEnv : ZoneBatchEnv :=
  ⟨fun d => if d = "a.com" then .error "delete failed"
            else .ok ⟨true, String.append "deleted-" d⟩,
   fun d _ => if d = "a.com" then .error "pause failed"
              else .ok ⟨true, String.append "paused-" d⟩⟩

/-! ## C5: paginated fetcher (`getDomains` accumulation loop) -/

/-- The page/total bookkeeping echoed by the provider with every listing
response. -/
structure ResultInfo where
  page : Nat
  per_page : Nat
  total_count : Nat
deriving DecidableEq, Repr

/-- A faithful remote listing: page `p` of size `P` over a fixed item list,
with the echoed `result_info`. -/
def fetchPage {α : Type} (items : List α) (perPage page : Nat) : List α × ResultInfo :=
  ((items.drop ((page - 1) * perPage)).take perPage, ⟨page, perPage, items.length⟩)

/-- The accumulation loop of `getDomains`: starting from page 1, request a
page, append its results, and continue while `page * per_page` is below the
reported `total_count`.  The loop is fuel-indexed; the claim theorem shows
`items.length + 1` fuel always suffices.  Returns the accumulated results and
the number of page requests issued. -/
def getDomainsPages {α : Type} (items : List α) (perPage : Nat) :
    Nat → Nat → List α × Nat
  | 0, _ => ([], 0)
  | fuel + 1, page =>
    let step := fetchPage items perPage page
    if step.2.total_count ≤ step.2.page * step.2.per_page then (step.1, 1)
    else
      let rest := getDomainsPages items perPage fuel (page + 1)
      (step.1 ++ rest.1, rest.2 + 1)

/-- The number of page requests the loop issues for `n` total items at page
size `p`: one request is always issued (the loop tests only after fetching),
then `Nat.ceil (n / p)` requests in total once `n` is positive. -/
def pagesNeeded (n p : Nat) : Nat :=
  max 1 ((n + p - 1) / p)

/-! ## C6: redirect replacer (`changeDomainRedirect`) -/

/-- One action of a page rule; a forwarding rule is a rule having an action
with id `forwarding_url`. -/
structure PageRuleAction where
  id : String
  urlValue : Option String := none
deriving DecidableEq, Repr

/-- A provider page rule. -/
structure PageRule where
  id : String
  actions : List PageRuleAction
deriving DecidableEq, Repr

/-- JS `rule.actions.some(action => action.id === 'forwarding_url')`. -/
def isForwardingRule (r : PageRule) : Bool :=
  r.actions.any (fun a => a.id == "forwarding_url")

/-- The page-rule API calls issued by `changeDomainRedirect`, in order. -/
inductive RuleApiCall
  | fetchRules
  | deleteRule (ruleId : String)
  | createRule (target : String) (redirectUrl : String)
deriving DecidableEq, Repr

/-- Outcome of changing one redirect. -/
inductive RedirectOutcome
  | ok
  | err (msg : String)
deriving DecidableEq, Repr

/-- The remote state and outcomes seen by one `changeDomainRedirect` call:
the zone's active page rules as fetched, whether the create call reports
success, and the id the provider would assign to the created rule. -/
structure RedirectEnv where
  rules : List PageRule
  createSucceeds : Bool
  newRuleId : String
deriving Repr

/-- The constraint value of the created rule: the domain with a trailing
slash stripped, suffixed with `/*`. -/
def forwardingTargetOf (domain : String) : String :=
  let formatted : String :=
    match domain.data.reverse with
    | '/' :: rest => ⟨rest.reverse⟩
    | _ => domain
  String.append formatted "/*"

/-- `changeDomainRedirect` from `cloudflare.mjs`: fetch the page rules, find
the first rule with a `forwarding_url` action, delete it by id if present,
then create the new forwarding rule; a create whose success flag is false
throws after the delete already happened.  Returns the outcome, the ordered
trace of page-rule API calls, and the zone's page rules afterwards. -/
def changeDomainRedirect (env : RedirectEnv) (domain newRedirectUrl : String) :
    RedirectOutcome × List RuleApiCall × List PageRule :=
  let created : PageRule :=
    { id := env.newRuleId
      actions := [{ id := "forwarding_url", urlValue := some newRedirectUrl }] }
  match env.rules.find? isForwardingRule with
  | some fr =>
    let afterDelete := env.rules.filter (fun q => !(q.id == fr.id))
    let trace := [RuleApiCall.fetchRules, RuleApiCall.deleteRule fr.id,
      RuleApiCall.createRule (forwardingTargetOf domain) newRedirectUrl]
    if env.createSucceeds then (.ok, trace, afterDelete ++ [created])
    else (.err "Failed to change domain redirect", trace, afterDelete)
  | none =>
    let trace := [RuleApiCall.fetchRules,
      RuleApiCall.createRule (forwardingTargetOf domain) newRedirectUrl]
    if env.createSucceeds then (.ok, trace, env.rules ++ [created])
    else (.err "Failed to change domain redirect", trace, env.rules)

/-- A zone with exactly one forwarding rule whose replacement create fails. -/
def oneRuleEnv : RedirectEnv :=
  { rules := [{ id := "r1", actions := [{ id := "forwarding_url", urlValue := some "https://old.example" }] }]
    createSucceeds := false
    newRuleId := "new1" }

/-- A zone that (against the convention) carries two forwarding rules. -/
def twoRulesEnv : RedirectEnv :=
  { rules := [{ id := "r1", actions := [{ id := "forwarding_url", urlValue := some "u1" }] },
              { id := "r2", actions := [{ id := "forwarding_url", urlValue := some "u2" }] }]
    createSucceeds := false
    newRuleId := "n" }

/-! ## C7: mapping builder (`createDomainRecordsMapFromTextFile`,
porkbun `processDomainFile`) -/

/-- The TXT verification record built for each parsed line: apex host,
fixed ttl. -/
structure TxtRecord where
  type : String
  host : String
  value : String
  ttl : Nat
deriving DecidableEq, Repr

/-- The state of the text-file parse: the domain-to-records object (a JS
object keeps key insertion order) and the lines reported as invalid. -/
structure MapState where
  entries : List (String × List TxtRecord)
  reports : List String
deriving DecidableEq, Repr

/-- `recordsMap[domain].push(record)`, initialising the key on first use. -/
def mapAppend (m : List (String × List TxtRecord)) (d : String) (r : TxtRecord) :
    List (String × List TxtRecord) :=
  if m.any (fun p => p.1 == d) then
    m.map (fun p => if p.1 == d then (p.1, p.2 ++ [r]) else p)
  else m ++ [(d, [r])]

/-- One iteration of the line loop in `createDomainRecordsMapFromTextFile`:
skip empty and `#`-comment lines, split the trimmed line on runs of tabs,
report lines with fewer than two fields, else append an apex TXT record under
the first field. -/
def buildStep (st : MapState) (line : String) : MapState :=
  if jsTrim line == "" || startsWithHash (jsTrim line) then st
  else
    let parts := jsSplitTabs (jsTrim line)
    if parts.length < 2 then { st with reports := st.reports ++ [line] }
    else
      { st with entries :=
          (mapAppend st.entries (parts.getD 0 "") ⟨"TXT", "", parts.getD 1 "", 3600⟩) }

/-- The full parse over a list of lines. -/
def buildLines (lines : List String) : MapState :=
  lines.foldl buildStep { entries := [], reports := [] }

/-- `createDomainRecordsMapFromTextFile` from `cloudflare.mjs` on the file
contents: split on newlines and run the line loop. -/
def createDomainRecordsMapFromTextFile (content : String) : MapState :=
  buildLines (jsSplitNewlines content)

/-- Line parsing of the porkbun `processDomainFile`: the raw line is split on
runs of whitespace (`/\s+/`), and the first two fields are the domain and the
record content; missing or empty fields make the line invalid. -/
def porkbunParseLine (line : String) : Option (String × String) :=
  if jsTrim line == "" || startsWithHash (jsTrim line) then none
  else
    let parts := jsSplitWs line
    let domain := parts.getD 0 ""
    let content := parts.getD 1 ""
    if domain == "" || content == "" then none
    else some (domain, content)

/-- An account in which every zone lookup comes back empty. -/
def emptyLookupEnv : ZoneLookupEnv :=
  ⟨fun _ => .ok []⟩

/-! ## C8: set-difference reconciler (`writeDomainsToFileByExclusion`) -/

/-- JS `Map.set` semantics on an association list: an existing key keeps its
slot and gets the new value, a new key is appended. -/
def jsMapSet (m : List (String × String)) (k v : String) : List (String × String) :=
  if m.any (fun p => p.1 == k) then m.map (fun p => if p.1 == k then (k, v) else p)
  else m ++ [(k, v)]

/-- `new Map(list)`: insert the pairs left to right. -/
def jsMapOfPairs (l : List (String × String)) : List (String × String) :=
  l.foldl (fun m p => jsMapSet m p.1 p.2) []

/-- JS `Map.delete` on the association list. -/
def jsMapDeleteKey (m : List (String × String)) (k : String) : List (String × String) :=
  m.filter (fun p => !(p.1 == k))

/-- `writeDomainsToFileByExclusion` from `cloudflare.mjs` (its pure core):
build a name-to-id map from the full snapshot, delete every name occurring in
any exclusion file, and write the remaining entries back as `{id, name}`
objects in map order. -/
def writeDomainsToFileByExclusion (allDomains : List DomainEntry)
    (exclusionFiles : List (List String)) : List DomainEntry :=
  let m0 := jsMapOfPairs (allDomains.map (fun d => (d.name, d.id)))
  let m1 := exclusionFiles.foldl (fun m names => names.foldl jsMapDeleteKey m) m0
  m1.map (fun p => { id := p.2, name := p.1 })

/-! ## Theorems -/

/-- Claim C9 (confirmed): the content filter keeps a record iff its value
contains the target substring, except that for a requested `TXT` type and
target `dkim` a record is kept iff its value contains `dkim` or its host
contains `_domainkey`; a TXT record with neither is not kept. -/
theorem c9_filter_confirmed (records : List RemoteDNSRecord) (content typ : String)
    (r : RemoteDNSRecord) :
    (¬(typ = "TXT" ∧ content = "dkim") →
      (r ∈ getFilteredDNSRecords records content typ ↔
        r ∈ records ∧ jsIncludes r.content content = true)) ∧
    (typ = "TXT" → content = "dkim" →
      (r ∈ getFilteredDNSRecords records content typ ↔
        r ∈ records ∧
          (jsIncludes r.content "dkim" = true ∨ jsIncludes r.name "_domainkey" = true))) := by
  constructor
  · intro hne
    have hcond : (typ == "TXT" && content == "dkim") = false := by
      rcases h1 : typ == "TXT" with _ | _ <;> rcases h2 : content == "dkim" with _ | _ <;>
        simp_all [beq_iff_eq]
    simp [getFilteredDNSRecords, List.mem_filter, dnsFilterPred, hcond]
  · intro h1 h2
    subst h1; subst h2
    simp [getFilteredDNSRecords, List.mem_filter, dnsFilterPred,
      Bool.or_eq_true, or_comm]

/-- Witness for C9 at the examples from the spec: a TXT record whose host is
under `_domainkey` (no literal `dkim` in its value) matches the dkim filter,
and a record with neither pattern does not. -/
theorem c9_filter_witness :
    (⟨"id1", "mail._domainkey.example.com", "v=DKIM1; k=rsa"⟩ : RemoteDNSRecord) ∈
      getFilteredDNSRecords
        [⟨"id1", "mail._domainkey.example.com", "v=DKIM1; k=rsa"⟩,
         ⟨"id2", "plain.example.com", "hello"⟩] "dkim" "TXT" ∧
    (⟨"id2", "plain.example.com", "hello"⟩ : RemoteDNSRecord) ∉
      getFilteredDNSRecords
        [⟨"id1", "mail._domainkey.example.com", "v=DKIM1; k=rsa"⟩,
         ⟨"id2", "plain.example.com", "hello"⟩] "dkim" "TXT" := by
  constructor
  · exact ((c9_filter_confirmed
      [⟨"id1", "mail._domainkey.example.com", "v=DKIM1; k=rsa"⟩,
       ⟨"id2", "plain.example.com", "hello"⟩] "dkim" "TXT"
      ⟨"id1", "mail._domainkey.example.com", "v=DKIM1; k=rsa"⟩).2 rfl rfl).mpr
      ⟨by decide, Or.inr (by decide)⟩
  · intro hm
    have h := ((c9_filter_confirmed
      [⟨"id1", "mail._domainkey.example.com", "v=DKIM1; k=rsa"⟩,
       ⟨"id2", "plain.example.com", "hello"⟩] "dkim" "TXT"
      ⟨"id2", "plain.example.com", "hello"⟩).2 rfl rfl).mp hm
    exact absurd h.2 (by decide)

/-- Claim C10 (confirmed): when the zone lookup returns an empty result list,
`getZoneId` indexes it unguarded and fails with a raw `TypeError`, not with
the normalized error shape produced by the request executor. -/
theorem c10_getZoneId_confirmed (env : ZoneLookupEnv) (domain : String)
    (h : env.lookup domain = .ok []) :
    getZoneId env domain =
      .error (.typeError "Cannot read properties of undefined (reading id)") ∧
    ∀ msg, getZoneId env domain ≠ .error (.normalized msg) := by
  constructor
  · simp [getZoneId, h]
  · intro msg
    simp [getZoneId, h]

/-- Splitting a bulk run at a list append: the second half starts from the
record-array state left behind by the first half. -/
theorem createSame_append (env : CFEnv) (ds1 ds2 : List String) (recs : List DNSRecord) :
    createSameDNSRecordsForManyDomains env (ds1 ++ ds2) recs =
      ((createSameDNSRecordsForManyDomains env ds1 recs).1 ++
        (createSameDNSRecordsForManyDomains env ds2
          (createSameDNSRecordsForManyDomains env ds1 recs).2.1).1,
       (createSameDNSRecordsForManyDomains env ds2
          (createSameDNSRecordsForManyDomains env ds1 recs).2.1).2.1,
       (createSameDNSRecordsForManyDomains env ds1 recs).2.2 ++
        (createSameDNSRecordsForManyDomains env ds2
          (createSameDNSRecordsForManyDomains env ds1 recs).2.1).2.2) := by
  induction ds1 generalizing recs with
  | nil => simp [createSameDNSRecordsForManyDomains]
  | cons d ds ih =>
    simp only [List.cons_append, createSameDNSRecordsForManyDomains, List.append_eq]
    rw [ih]
    simp [List.append_assoc]

/-- Claim C1 (code bug): in a bulk run over `["a.com", "b.com"]` with one
shared apex record (host `""`), the record destined for `b.com` is submitted
with host `a.com` — not `b.com` as the host-normalization invariant requires —
because processing `a.com` rewrote the shared record object in place. -/
theorem c1_hostNormalization_bug :
    ((createSameDNSRecordsForManyDomains allOkEnv ["a.com", "b.com"]
        [{ type := "TXT", host := "", value := "v" }]).2.2.map
      (fun s => s.2.name)) = ["a.com", "a.com"] ∧
    (["a.com", "a.com"] : List String) ≠ ["a.com", "b.com"] := by
  constructor
  · rfl
  · decide

/-- Claim C2 (confirmed): `insertDNSRecords` mutates the shared record array
in place; after the first domain of a bulk run, an apex record carries the
first domain literal as its host, so the second domain submits the first
domain name as host. -/
theorem c2_mutation_confirmed (env : CFEnv) (d1 d2 z1 z2 : String) (r : DNSRecord)
    (hr : r.host = "" ∨ r.host = "@")
    (hd1 : d1 ≠ "") (hd1' : d1 ≠ "@")
    (hz1 : env.zoneId d1 = .ok z1) (hz2 : env.zoneId d2 = .ok z2) :
    (createSameDNSRecordsForManyDomains env [d1, d2] [r]).2.1 = [{ r with host := d1 }] ∧
    (createSameDNSRecordsForManyDomains env [d1, d2] [r]).2.2 =
      [(z1, formatRecord { r with host := d1 }), (z2, formatRecord { r with host := d1 })] ∧
    (formatRecord { r with host := d1 }).name = d1 := by
  have hb1 : (d1 == "@") = false := by simp [hd1']
  have hb2 : (d1 == "") = false := by simp [hd1]
  have hnorm : (r.host == "@" || r.host == "") = true := by
    rcases hr with h | h <;> simp [h]
  refine ⟨?_, ?_, rfl⟩ <;>
    simp [createSameDNSRecordsForManyDomains, insertDNSRecords, hz1, hz2,
      insertLoop, hnorm, hb1, hb2]

/-- Witness for C2: with both zones resolving, the apex record of the shared
array is submitted with host `a.com` for both `a.com` and `b.com`. -/
theorem c2_mutation_witness :
    (createSameDNSRecordsForManyDomains allOkEnv ["a.com", "b.com"]
        [{ type := "TXT", host := "", value := "v" }]).2.1 =
      [{ type := "TXT", host := "a.com", value := "v" }] ∧
    (createSameDNSRecordsForManyDomains allOkEnv ["a.com", "b.com"]
        [{ type := "TXT", host := "", value := "v" }]).2.2 =
      [("zone-a.com", formatRecord { type := "TXT", host := "a.com", value := "v" }),
       ("zone-b.com", formatRecord { type := "TXT", host := "a.com", value := "v" })] ∧
    (formatRecord { type := "TXT", host := "a.com", value := "v" }).name = "a.com" :=
  c2_mutation_confirmed allOkEnv "a.com" "b.com" "zone-a.com" "zone-b.com"
    { type := "TXT", host := "", value := "v" }
    (Or.inl rfl) (by decide) (by decide) rfl rfl

/-- Claim C4 (confirmed): a failed zone-id resolution for a domain yields
exactly one failure `OperationResult` for that domain, attempts none of its
records, leaves the shared record array untouched, and the results of the
other domains of the batch are exactly those of the batch with the failing
domain removed. -/
theorem c4_batchIsolation_confirmed (env : CFEnv) (ds1 ds2 : List String)
    (d e : String) (recs : List DNSRecord)
    (h : env.zoneId d = .error e) :
    (insertDNSRecords env d recs).1 = [{ success := false, domain := d, error := some e }] ∧
    (insertDNSRecords env d recs).2.2 = [] ∧
    (insertDNSRecords env d recs).2.1 = recs ∧
    (createSameDNSRecordsForManyDomains env (ds1 ++ d :: ds2) recs).1 =
      (createSameDNSRecordsForManyDomains env ds1 recs).1 ++
        { success := false, domain := d, error := some e } ::
          (createSameDNSRecordsForManyDomains env ds2
            (createSameDNSRecordsForManyDomains env ds1 recs).2.1).1 ∧
    (createSameDNSRecordsForManyDomains env (ds1 ++ ds2) recs).1 =
      (createSameDNSRecordsForManyDomains env ds1 recs).1 ++
        (createSameDNSRecordsForManyDomains env ds2
          (createSameDNSRecordsForManyDomains env ds1 recs).2.1).1 := by
  refine ⟨by simp [insertDNSRecords, h], by simp [insertDNSRecords, h],
    by simp [insertDNSRecords, h], ?_, ?_⟩
  · rw [createSame_append]
    have hmid : createSameDNSRecordsForManyDomains env (d :: ds2)
        (createSameDNSRecordsForManyDomains env ds1 recs).2.1 =
        (let p := insertDNSRecords env d (createSameDNSRecordsForManyDomains env ds1 recs).2.1
         let q := createSameDNSRecordsForManyDomains env ds2 p.2.1
         (p.1 ++ q.1, q.2.1, p.2.2 ++ q.2.2)) := rfl
    rw [hmid]
    simp [insertDNSRecords, h]
  · rw [createSame_append]

/-- Witness for C4 on the spec scenario of three domains whose middle one
fails zone resolution. -/
theorem c4_batchIsolation_witness :
    (insertDNSRecords oneBadEnv "bad.com" [{ type := "TXT", host := "", value := "v" }]).1 =
      [{ success := false, domain := "bad.com", error := some "zone not found" }] ∧
    (insertDNSRecords oneBadEnv "bad.com" [{ type := "TXT", host := "", value := "v" }]).2.2 = [] ∧
    (insertDNSRecords oneBadEnv "bad.com" [{ type := "TXT", host := "", value := "v" }]).2.1 =
      [{ type := "TXT", host := "", value := "v" }] ∧
    (createSameDNSRecordsForManyDomains oneBadEnv (["a.com"] ++ "bad.com" :: ["c.com"])
        [{ type := "TXT", host := "", value := "v" }]).1 =
      (createSameDNSRecordsForManyDomains oneBadEnv ["a.com"]
          [{ type := "TXT", host := "", value := "v" }]).1 ++
        { success := false, domain := "bad.com", error := some "zone not found" } ::
          (createSameDNSRecordsForManyDomains oneBadEnv ["c.com"]
            (createSameDNSRecordsForManyDomains oneBadEnv ["a.com"]
              [{ type := "TXT", host := "", value := "v" }]).2.1).1 ∧
    (createSameDNSRecordsForManyDomains oneBadEnv (["a.com"] ++ ["c.com"])
        [{ type := "TXT", host := "", value := "v" }]).1 =
      (createSameDNSRecordsForManyDomains oneBadEnv ["a.com"]
          [{ type := "TXT", host := "", value := "v" }]).1 ++
        (createSameDNSRecordsForManyDomains oneBadEnv ["c.com"]
          (createSameDNSRecordsForManyDomains oneBadEnv ["a.com"]
            [{ type := "TXT", host := "", value := "v" }]).2.1).1 :=
  c4_batchIsolation_confirmed oneBadEnv ["a.com"] ["c.com"] "bad.com" "zone not found"
    [{ type := "TXT", host := "", value := "v" }] rfl

/-- Claim C3 (code bug): on the batch `["a.com", "b.com"]` with `a.com`
failing, `deleteManyZones` returns no list at all (`undefined`) and its
internal results array holds one entry for two attempted items, and
`changeManyDomainRedirects` likewise returns no list; only `pauseManyZones`
returns the complete per-item list the claim describes. -/
theorem c3_batchResults_bug :
    deleteManyZones aFailsEnv ["a.com", "b.com"] = none ∧
    deleteManyZonesResults aFailsEnv ["a.com", "b.com"] = [⟨true, "deleted-b.com"⟩] ∧
    changeManyDomainRedirects (fun _ => .ok ()) ["a.com", "b.com"] = none ∧
    pauseManyZones aFailsEnv true ["a.com", "b.com"] =
      [{ domain := "a.com", success := false, error := some "pause failed" },
       { domain := "b.com", success := true }] := by
  refine ⟨rfl, ?_, rfl, ?_⟩ <;> rfl

/-- Arithmetic: a page index at which the loop stops is the final one. -/
theorem pagesNeeded_of_stop (n p k : Nat) (hp : 0 < p) (hk1 : 1 ≤ k)
    (hkle : k ≤ pagesNeeded n p) (hstop : n ≤ k * p) : k = pagesNeeded n p := by
  have hdm : p * ((n + p - 1) / p) + (n + p - 1) % p = n + p - 1 :=
    Nat.div_add_mod (n + p - 1) p
  have hmod : (n + p - 1) % p < p := Nat.mod_lt _ hp
  rcases Nat.eq_zero_or_pos ((n + p - 1) / p) with hq | hq
  · simp only [pagesNeeded, hq] at hkle ⊢
    omega
  · have hmax : pagesNeeded n p = (n + p - 1) / p := by
      simp only [pagesNeeded]
      omega
    rw [hmax] at hkle ⊢
    by_contra hne
    have hklt : k < (n + p - 1) / p := lt_of_le_of_ne hkle hne
    have hkle' : k ≤ (n + p - 1) / p - 1 := by omega
    have hmul : k * p ≤ ((n + p - 1) / p - 1) * p := Nat.mul_le_mul_right p hkle'
    have hone : ((n + p - 1) / p - 1) * p + p = (n + p - 1) / p * p := by
      rcases hq' : (n + p - 1) / p with _ | q'
      · omega
      · simp only [hq', Nat.succ_sub_one, Nat.succ_mul]
    have hcomm : (n + p - 1) / p * p = p * ((n + p - 1) / p) := Nat.mul_comm _ _
    omega

/-- Arithmetic: a page index at which the loop continues is below the final
one. -/
theorem pagesNeeded_of_continue (n p k : Nat) (hp : 0 < p) (hcont : k * p < n) :
    k + 1 ≤ pagesNeeded n p := by
  have hdm : p * ((n + p - 1) / p) + (n + p - 1) % p = n + p - 1 :=
    Nat.div_add_mod (n + p - 1) p
  have hmod : (n + p - 1) % p < p := Nat.mod_lt _ hp
  have hqn : n ≤ p * ((n + p - 1) / p) := by omega
  have hlt : k * p < ((n + p - 1) / p) * p := by
    rw [Nat.mul_comm ((n + p - 1) / p) p]
    omega
  have hk : k < (n + p - 1) / p := Nat.lt_of_mul_lt_mul_right hlt
  have : (n + p - 1) / p ≤ pagesNeeded n p := le_max_right _ _
  omega

/-- The loop invariant: from a page `k` that is still within range, with
enough fuel, the loop returns exactly the items from offset `(k-1)·p` on and
issues one request per remaining page. -/
theorem getDomainsPages_from {α : Type} (items : List α) (p : Nat) (hp : 0 < p) :
    ∀ fuel k, 1 ≤ k → k ≤ pagesNeeded items.length p →
      pagesNeeded items.length p + 1 - k ≤ fuel →
      getDomainsPages items p fuel k =
        (items.drop ((k - 1) * p), pagesNeeded items.length p + 1 - k) := by
  intro fuel
  induction fuel with
  | zero => intro k hk1 hkle hfuel; omega
  | succ fuel ih =>
    intro k hk1 hkle hfuel
    by_cases hstop : items.length ≤ k * p
    · have hk : k = pagesNeeded items.length p :=
        pagesNeeded_of_stop items.length p k hp hk1 hkle hstop
      have harith : (k - 1) * p + p = k * p := by
        rcases k with _ | k'
        · omega
        · simp only [Nat.succ_sub_one, Nat.succ_mul]
      have hlen : (items.drop ((k - 1) * p)).length ≤ p := by
        rw [List.length_drop]
        omega
      have htake : (items.drop ((k - 1) * p)).take p = items.drop ((k - 1) * p) :=
        List.take_of_length_le hlen
      have hcount : pagesNeeded items.length p + 1 - k = 1 := by omega
      simp only [getDomainsPages, fetchPage]
      rw [if_pos hstop, htake, hcount]
    · have hcont : k * p < items.length := by omega
      have hnext : k + 1 ≤ pagesNeeded items.length p :=
        pagesNeeded_of_continue items.length p k hp hcont
      have hih := ih (k + 1) (by omega) hnext (by omega)
      have hdrop : items.drop ((k + 1 - 1) * p) = (items.drop ((k - 1) * p)).drop p := by
        rw [List.drop_drop]
        congr 1
        rcases k with _ | k'
        · omega
        · simp only [Nat.add_sub_cancel, Nat.succ_sub_one, Nat.succ_mul]
      have hcount : pagesNeeded items.length p + 1 - (k + 1) + 1 =
          pagesNeeded items.length p + 1 - k := by omega
      simp only [getDomainsPages, fetchPage]
      rw [if_neg hstop, hih, hdrop, List.take_append_drop, hcount]

/-- The request count bound used to discharge the fuel hypothesis. -/
theorem pagesNeeded_le (n p : Nat) (hp : 0 < p) : pagesNeeded n p ≤ n + 1 := by
  have hmul : n ≤ n * p := Nat.le_mul_of_pos_right n hp
  have hlt : (n + p - 1) / p < n + 2 := by
    rw [Nat.div_lt_iff_lt_mul hp, Nat.add_mul]
    omega
  simp only [pagesNeeded]
  omega

/-- Claim C5 (amended): for a listing of `N` items at page size `P > 0`, the
accumulation loop of `getDomains` terminates and returns all `N` items in
remote order, issuing `max 1 (ceil (N / P))` page requests — the loop always
issues its first request before testing the total, so an empty listing costs
one request, not `ceil (0 / P) = 0`; for `N ≥ 1` the count is exactly
`ceil (N / P)`. -/
theorem c5_pagination_amended {α : Type} (items : List α) (perPage : Nat)
    (hp : 0 < perPage) :
    getDomainsPages items perPage (items.length + 1) 1 =
      (items, pagesNeeded items.length perPage) := by
  have h1 : (1 : Nat) ≤ pagesNeeded items.length perPage := le_max_left 1 _
  have hfuel : pagesNeeded items.length perPage + 1 - 1 ≤ items.length + 1 := by
    have := pagesNeeded_le items.length perPage hp
    omega
  have h := getDomainsPages_from items perPage hp (items.length + 1) 1 (le_refl 1) h1 hfuel
  simpa using h

/-- Witness for C5: three items at page size two are all returned, in order,
in exactly two page requests. -/
theorem c5_pagination_witness :
    getDomainsPages [10, 20, 30] 2 4 1 = ([10, 20, 30], 2) :=
  c5_pagination_amended [10, 20, 30] 2 (by decide)

/-- Counterexample to C5 as stated: for an empty listing (`N = 0`) the loop
still issues one page request, while `ceil (N / P) = 0`. -/
theorem c5_pagination_counterexample :
    getDomainsPages ([] : List Nat) 50 1 1 = ([], 1) ∧
    (0 + 50 - 1) / 50 = 0 ∧ (1 : Nat) ≠ 0 :=
  ⟨rfl, rfl, by decide⟩

/-- A list whose filter is a singleton has that element as its first match. -/
theorem find_of_filter_singleton {α : Type} (p : α → Bool) (l : List α) (a : α)
    (h : l.filter p = [a]) : l.find? p = some a := by
  induction l with
  | nil => simp at h
  | cons x xs ih =>
    by_cases hx : p x = true
    · rw [List.filter_cons_of_pos hx] at h
      have hxa : x = a := by
        have := congrArg List.head? h
        simpa using this
      rw [List.find?_cons_of_pos _ hx, hxa]
    · rw [List.filter_cons_of_neg (by simpa using hx)] at h
      rw [List.find?_cons_of_neg _ (by simpa using hx)]
      exact ih h

/-- Claim C6 (amended): when the zone has exactly one forwarding page rule,
`changeDomainRedirect` performs exactly fetch-rules, delete-that-rule-by-id,
create-new-rule, in that order; and when the create call fails after the
delete succeeded, it reports failure without re-creating the deleted rule,
leaving the zone with no forwarding rule.  (When several forwarding rules
exist only the first is deleted, so a failing create can leave others
behind.) -/
theorem c6_redirectReplace_amended (env : RedirectEnv) (domain url : String)
    (fr : PageRule) (hone : env.rules.filter isForwardingRule = [fr]) :
    (changeDomainRedirect env domain url).2.1 =
      [RuleApiCall.fetchRules, RuleApiCall.deleteRule fr.id,
       RuleApiCall.createRule (forwardingTargetOf domain) url] ∧
    (env.createSucceeds = false →
      (changeDomainRedirect env domain url).1 = .err "Failed to change domain redirect" ∧
      ((changeDomainRedirect env domain url).2.2).filter isForwardingRule = []) := by
  have hfind : env.rules.find? isForwardingRule = some fr :=
    find_of_filter_singleton isForwardingRule env.rules fr hone
  constructor
  · simp only [changeDomainRedirect, hfind]
    rcases env.createSucceeds with _ | _ <;> simp
  · intro hfail
    have hcomm : (env.rules.filter (fun q => !(q.id == fr.id))).filter isForwardingRule =
        (env.rules.filter isForwardingRule).filter (fun q => !(q.id == fr.id)) := by
      rw [List.filter_filter, List.filter_filter]
      exact List.filter_congr (fun a _ => Bool.and_comm _ _)
    simp only [changeDomainRedirect, hfind, hfail, Bool.false_eq_true, if_false]
    refine ⟨trivial, ?_⟩
    rw [hcomm, hone]
    simp

/-- Witness for C6: the exact three-call trace on a concrete zone, and with
the create failing the zone is left with no forwarding rule. -/
theorem c6_redirectReplace_witness :
    (changeDomainRedirect oneRuleEnv "a.com" "https://new.example").2.1 =
      [RuleApiCall.fetchRules, RuleApiCall.deleteRule "r1",
       RuleApiCall.createRule "a.com/*" "https://new.example"] ∧
    (changeDomainRedirect oneRuleEnv "a.com" "https://new.example").1 =
      .err "Failed to change domain redirect" ∧
    ((changeDomainRedirect oneRuleEnv "a.com" "https://new.example").2.2).filter
      isForwardingRule = [] :=
  ⟨(c6_redirectReplace_amended oneRuleEnv "a.com" "https://new.example"
      { id := "r1", actions := [{ id := "forwarding_url", urlValue := some "https://old.example" }] }
      (by decide)).1,
   ((c6_redirectReplace_amended oneRuleEnv "a.com" "https://new.example"
      { id := "r1", actions := [{ id := "forwarding_url", urlValue := some "https://old.example" }] }
      (by decide)).2 rfl).1,
   ((c6_redirectReplace_amended oneRuleEnv "a.com" "https://new.example"
      { id := "r1", actions := [{ id := "forwarding_url", urlValue := some "https://old.example" }] }
      (by decide)).2 rfl).2⟩

/-- Counterexample to C6 as stated: on a zone with two forwarding rules whose
create call fails after the delete, a forwarding rule is still present
afterwards — the operation deletes only the first match, so the zone is not
left with no forwarding rule. -/
theorem c6_redirectReplace_counterexample :
    (twoRulesEnv.rules.filter isForwardingRule).length = 2 ∧
    (changeDomainRedirect twoRulesEnv "a.com" "u3").1 =
      .err "Failed to change domain redirect" ∧
    ((changeDomainRedirect twoRulesEnv "a.com" "u3").2.2).filter isForwardingRule ≠ [] := by
  refine ⟨rfl, rfl, ?_⟩
  decide

/-- A parse step only ever appends to the report list; its entry effect does
not depend on the reports accumulated so far. -/
theorem buildStep_split (st : MapState) (line : String) :
    buildStep st line =
      { entries := (buildStep { entries := st.entries, reports := [] } line).entries
        reports := st.reports ++
          (buildStep { entries := st.entries, reports := [] } line).reports } := by
  simp only [buildStep]
  by_cases h1 : (jsTrim line == "" || startsWithHash (jsTrim line)) = true
  · rw [if_pos h1, if_pos h1]
    simp
  · rw [if_neg h1, if_neg h1]
    by_cases h2 : (jsSplitTabs (jsTrim line)).length < 2
    · rw [if_pos h2, if_pos h2]
      simp
    · rw [if_neg h2, if_neg h2]
      simp

/-- The entries produced by the parse do not depend on previously accumulated
reports. -/
theorem buildLines_entries_congr (lines : List String)
    (E : List (String × List TxtRecord)) (R R' : List String) :
    (lines.foldl buildStep { entries := E, reports := R }).entries =
      (lines.foldl buildStep { entries := E, reports := R' }).entries := by
  induction lines generalizing E R R' with
  | nil => rfl
  | cons l ls ih =>
    simp only [List.foldl_cons]
    rw [buildStep_split { entries := E, reports := R } l,
        buildStep_split { entries := E, reports := R' } l]
    exact ih _ _ _

/-- Claim C7 (amended): the builder skips empty and `#`-comment lines, splits
the remaining lines on runs of tab characters — not on general whitespace:
space-separated lines are reported as invalid (the porkbun file processor is
the path that splits on whitespace) — builds one apex TXT record from the
first two fields, and skips, with a report, every line with fewer than two
fields while leaving the parse of all remaining lines unchanged. -/
theorem c7_mappingBuilder_amended (st : MapState) (line : String)
    (pre post : List String) :
    ((jsTrim line == "" || startsWithHash (jsTrim line)) = true →
      buildStep st line = st) ∧
    ((jsTrim line == "" || startsWithHash (jsTrim line)) = false →
      2 ≤ (jsSplitTabs (jsTrim line)).length →
      buildStep st line =
        { st with entries :=
            (mapAppend st.entries ((jsSplitTabs (jsTrim line)).getD 0 "")
              ⟨"TXT", "", (jsSplitTabs (jsTrim line)).getD 1 "", 3600⟩) }) ∧
    ((jsTrim line == "" || startsWithHash (jsTrim line)) = false →
      (jsSplitTabs (jsTrim line)).length < 2 →
      buildStep st line = { st with reports := st.reports ++ [line] } ∧
      (buildLines (pre ++ line :: post)).entries = (buildLines (pre ++ post)).entries) ∧
    porkbunParseLine "a.com v" = some ("a.com", "v") := by
  refine ⟨?_, ?_, ?_, rfl⟩
  · intro h
    simp only [buildStep, h, if_true]
  · intro h hge
    simp only [buildStep, h, Bool.false_eq_true, if_false]
    rw [if_neg (by omega)]
  · intro h hlt
    have hstep : ∀ s : MapState, buildStep s line = { s with reports := s.reports ++ [line] } := by
      intro s
      simp only [buildStep, h, Bool.false_eq_true, if_false]
      rw [if_pos hlt]
    refine ⟨hstep st, ?_⟩
    simp only [buildLines, List.foldl_append, List.foldl_cons]
    rw [hstep]
    exact buildLines_entries_congr post
      (pre.foldl buildStep { entries := [], reports := [] }).entries
      ((pre.foldl buildStep { entries := [], reports := [] }).reports ++ [line])
      (pre.foldl buildStep { entries := [], reports := [] }).reports

/-- Witness for C7: a line without tabs is reported, and the surrounding
lines parse exactly as they would without it. -/
theorem c7_mappingBuilder_witness :
    buildStep { entries := [], reports := [] } "badline" =
      { entries := [], reports := ["badline"] } ∧
    (buildLines (["a.com\tv"] ++ "badline" :: ["b.com\tw"])).entries =
      (buildLines (["a.com\tv"] ++ ["b.com\tw"])).entries :=
  (c7_mappingBuilder_amended { entries := [], reports := [] } "badline"
    ["a.com\tv"] ["b.com\tw"]).2.2.1 rfl (by decide)

/-- Counterexample to C7 as stated: a line with two whitespace-delimited
fields — but separated by a space, not a tab — is reported as invalid by
`createDomainRecordsMapFromTextFile` instead of yielding a record, because
the builder splits on runs of tabs only. -/
theorem c7_mappingBuilder_counterexample :
    2 ≤ (jsSplitWs "a.com v").length ∧
    createDomainRecordsMapFromTextFile "a.com v" =
      { entries := [], reports := ["a.com v"] } :=
  ⟨by decide, rfl⟩

/-- Witness for C10: a concrete absent domain reaches the TypeError branch. -/
theorem c10_getZoneId_witness :
    getZoneId emptyLookupEnv "absent.example.com" =
      .error (.typeError "Cannot read properties of undefined (reading id)") ∧
    getZoneId emptyLookupEnv "absent.example.com" ≠
      .error (.normalized "zone not found") :=
  ⟨(c10_getZoneId_confirmed emptyLookupEnv "absent.example.com" rfl).1,
   (c10_getZoneId_confirmed emptyLookupEnv "absent.example.com" rfl).2 "zone not found"⟩

/-- Inserting pairs with fresh, pairwise-distinct keys appends them. -/
theorem foldl_jsMapSet_nodup (l : List (String × String)) :
    ∀ acc, (∀ q ∈ acc, ∀ p ∈ l, q.1 ≠ p.1) → (l.map Prod.fst).Nodup →
      l.foldl (fun m p => jsMapSet m p.1 p.2) acc = acc ++ l := by
  induction l with
  | nil =>
    intro acc _ _
    simp
  | cons p ps ih =>
    intro acc hdisj hnd
    simp only [List.foldl_cons]
    have hany : (acc.any (fun q => q.1 == p.1)) = false := by
      rw [List.any_eq_false]
      intro q hq hbeq
      exact absurd (by simpa using hbeq) (hdisj q hq p (List.mem_cons_self p ps))
    have hset : jsMapSet acc p.1 p.2 = acc ++ [p] := by
      simp only [jsMapSet, hany, Bool.false_eq_true, if_false]
    rw [hset, ih (acc ++ [p]) ?_ ?_]
    · simp
    · intro q hq r hr
      rcases List.mem_append.mp hq with h | h
      · exact hdisj q h r (List.mem_cons_of_mem p hr)
      · have hqp : q = p := by simpa using h
        subst hqp
        have hnotin : q.1 ∉ ps.map Prod.fst := by
          simp only [List.map_cons, List.nodup_cons] at hnd
          exact hnd.1
        intro hcontra
        exact hnotin (hcontra ▸ List.mem_map_of_mem Prod.fst hr)
    · simp only [List.map_cons, List.nodup_cons] at hnd
      exact hnd.2

/-- With pairwise-distinct keys, the JS map of a pair list is that list. -/
theorem jsMapOfPairs_eq_self (l : List (String × String))
    (h : (l.map Prod.fst).Nodup) : jsMapOfPairs l = l := by
  have := foldl_jsMapSet_nodup l [] (by simp) h
  simpa [jsMapOfPairs] using this

/-- Deleting each name of a list is one filter pass. -/
theorem foldl_jsMapDeleteKey (names : List String) :
    ∀ m : List (String × String),
      names.foldl jsMapDeleteKey m = m.filter (fun p => !(names.contains p.1)) := by
  induction names with
  | nil =>
    intro m
    simp
  | cons n ns ih =>
    intro m
    simp only [List.foldl_cons]
    rw [ih (jsMapDeleteKey m n)]
    simp only [jsMapDeleteKey]
    rw [List.filter_filter]
    apply List.filter_congr
    intro p _
    simp only [List.contains_cons, Bool.not_or]
    by_cases hpn : p.1 = n
    · subst hpn
      simp
    · have hb : (p.1 == n) = false := beq_eq_false_iff_ne.mpr hpn
      simp [hb, hpn]

/-- Deleting every name of every exclusion file is one conjunctive filter. -/
theorem foldl_exclusions (excl : List (List String)) :
    ∀ m : List (String × String),
      excl.foldl (fun m names => names.foldl jsMapDeleteKey m) m =
        m.filter (fun p => excl.all (fun ns => !(ns.contains p.1))) := by
  induction excl with
  | nil =>
    intro m
    simp
  | cons ns rest ih =>
    intro m
    simp only [List.foldl_cons]
    rw [ih, foldl_jsMapDeleteKey]
    rw [List.filter_filter]
    apply List.filter_congr
    intro p _
    simp only [List.all_cons]
    exact Bool.and_comm _ _

/-- Claim C8 (amended): for a full snapshot with pairwise-distinct names, the
reconciler returns exactly the snapshot entries whose names appear in no
exclusion list, in snapshot order; exclusion names absent from the snapshot
change nothing, and re-applying the same exclusions is idempotent.  (On a
snapshot with a repeated name, the JS `Map` collapses the duplicates to one
entry carrying the last id, so the unrestricted claim fails.) -/
theorem c8_setDifference_amended (snap : List DomainEntry) (excl : List (List String))
    (h : (snap.map DomainEntry.name).Nodup) :
    writeDomainsToFileByExclusion snap excl =
      snap.filter (fun d => excl.all (fun ns => !(ns.contains d.name))) ∧
    writeDomainsToFileByExclusion (writeDomainsToFileByExclusion snap excl) excl =
      writeDomainsToFileByExclusion snap excl := by
  have key : ∀ s : List DomainEntry, (s.map DomainEntry.name).Nodup →
      writeDomainsToFileByExclusion s excl =
        s.filter (fun d => excl.all (fun ns => !(ns.contains d.name))) := by
    intro s hs
    simp only [writeDomainsToFileByExclusion]
    rw [jsMapOfPairs_eq_self _ (by rw [List.map_map]; exact hs)]
    rw [foldl_exclusions]
    rw [List.filter_map, List.map_map]
    have hid : ((fun p : String × String => ({ id := p.2, name := p.1 } : DomainEntry)) ∘
        (fun d : DomainEntry => (d.name, d.id))) = id := by
      funext d
      rfl
    rw [hid, List.map_id]
    exact List.filter_congr (fun a _ => rfl)
  have hpred := key snap h
  refine ⟨hpred, ?_⟩
  have hnd2 : ((snap.filter
      (fun d => excl.all (fun ns => !(ns.contains d.name)))).map DomainEntry.name).Nodup := by
    have hsub : ((snap.filter
        (fun d => excl.all (fun ns => !(ns.contains d.name)))).map DomainEntry.name).Sublist
        (snap.map DomainEntry.name) :=
      List.Sublist.map DomainEntry.name (List.filter_sublist snap)
    exact List.Nodup.sublist hsub h
  rw [hpred, key _ hnd2, List.filter_filter]
  exact List.filter_congr (fun a _ => Bool.and_self _)

/-- Witness for C8 at the example of the spec: excluding `a.com` and `c.com`
from `{a.com, b.com, c.com}` leaves exactly `b.com`, idempotently. -/
theorem c8_setDifference_witness :
    writeDomainsToFileByExclusion
        [{ id := "1", name := "a.com" }, { id := "2", name := "b.com" },
         { id := "3", name := "c.com" }] [["a.com"], ["c.com"]] =
      ([{ id := "1", name := "a.com" }, { id := "2", name := "b.com" },
        { id := "3", name := "c.com" }] : List DomainEntry).filter
        (fun d => ([["a.com"], ["c.com"]] : List (List String)).all
          (fun ns => !(ns.contains d.name))) ∧
    writeDomainsToFileByExclusion
        (writeDomainsToFileByExclusion
          [{ id := "1", name := "a.com" }, { id := "2", name := "b.com" },
           { id := "3", name := "c.com" }] [["a.com"], ["c.com"]])
        [["a.com"], ["c.com"]] =
      writeDomainsToFileByExclusion
        [{ id := "1", name := "a.com" }, { id := "2", name := "b.com" },
         { id := "3", name := "c.com" }] [["a.com"], ["c.com"]] :=
  c8_setDifference_amended
    [{ id := "1", name := "a.com" }, { id := "2", name := "b.com" },
     { id := "3", name := "c.com" }] [["a.com"], ["c.com"]] (by decide)

/-- Counterexample to C8 as stated: a snapshot with a duplicated name is
collapsed by the name-keyed map — with no exclusions at all, the result is
one entry (with the last id) rather than both snapshot entries. -/
theorem c8_setDifference_counterexample :
    writeDomainsToFileByExclusion
        [{ id := "1", name := "a" }, { id := "2", name := "a" }] [] =
      [{ id := "2", name := "a" }] ∧
    writeDomainsToFileByExclusion
        [{ id := "1", name := "a" }, { id := "2", name := "a" }] [] ≠
      [{ id := "1", name := "a" }, { id := "2", name := "a" }] :=
  ⟨rfl, by decide⟩

